import Mathlib

/-!
Verification development for the Vulkan registry ingestion pipeline
(`analysis` crate: `lib.rs`, `xml.rs`, `items/mod.rs`, `items/structures.rs`).

The Rust sources are shallowly embedded: XML nodes become an inductive tree,
attribute strings become `String`, fallible code (Rust `unwrap`, `assert!`,
`unreachable!`) becomes `Except String`.  The `cdecl` module of the crate is
declared (`pub mod cdecl;`) but its source file is not among the provided
sources; the definitions borrowed from it (`CTok.lexInto`, `CDecl.parse`,
`CType.VOID`) are modelled from the specification document and are marked as
such in their doc comments.
-/

namespace VkAnalysis

/-- Splits a character list at every occurrence of `sep`, mirroring Rust
`str::split`: an empty input yields one empty segment, and consecutive
separators yield empty segments. -/
def splitSep (sep : Char) : List Char → List (List Char)
  | [] => [[]]
  | c :: rest =>
    let r := splitSep sep rest
    if c = sep then
      [] :: r
    else
      match r with
      | s :: ss => (c :: s) :: ss
      | [] => [[c]]

/-- Mirrors Rust `str::strip_prefix`: returns the remainder after the given
pattern, or `none` when the input does not start with it. -/
def dropPfx : List Char → List Char → Option (List Char)
  | [], s => some s
  | _ :: _, [] => none
  | p :: ps, c :: cs => if p = c then dropPfx ps cs else none

/-- Numeric value of a run of ASCII digits, most significant digit first. -/
def digitsVal (cs : List Char) : Nat :=
  cs.foldl (fun acc c => acc * 10 + (c.toNat - 48)) 0

/-- Mirrors Rust `str::parse` for unsigned machine integers with exclusive
upper bound `bound`: an optional leading plus sign, then at least one ASCII
digit, and the value must fit below the bound (otherwise parsing fails, as
Rust reports an overflow error). -/
def parseBounded (bound : Nat) (s : List Char) : Option Nat :=
  let t := if s.head? = some '+' then s.tail else s
  if t.isEmpty then none
  else if t.all Char.isDigit then
    if digitsVal t < bound then some (digitsVal t) else none
  else none

/-- Rust `str::parse::<u32>`. -/
def parseU32 (s : List Char) : Option Nat :=
  parseBounded 4294967296 s

/-- Rust `str::parse::<u8>`. -/
def parseU8 (s : List Char) : Option Nat :=
  parseBounded 256 s

/-! ## XML node model

`roxmltree` nodes are either elements (tag, attributes, children), text runs,
or comments.  Processing instructions and the root pseudo-node never occur
below the registry root and are omitted. -/

inductive XNode where
  | element (tag : String) (attrs : List (String × String)) (children : List XNode)
  | text (s : String)
  | comment (s : String)

/-- `roxmltree` `tag_name().name()`: the empty string for non-element nodes. -/
def XNode.tagName : XNode → String
  | .element tag _ _ => tag
  | _ => ""

/-- The children of an element node (non-elements have none). -/
def XNode.childNodes : XNode → List XNode
  | .element _ _ children => children
  | _ => []

/-- `Node::attribute`: looks up an attribute value by name on an element. -/
def XNode.attr? (n : XNode) (key : String) : Option String :=
  match n with
  | .element _ attrs _ => (attrs.find? (fun p => p.1 == key)).map (·.2)
  | _ => none

/-- `Node::has_attribute`. -/
def XNode.hasAttr (n : XNode) (key : String) : Bool :=
  (n.attr? key).isSome

/-- `Node::has_tag_name`. -/
def XNode.hasTag (n : XNode) (t : String) : Bool :=
  n.tagName == t

/-- Number of attributes on the node (`Node::attributes().len()`). -/
def XNode.attrCount : XNode → Nat
  | .element _ attrs _ => attrs.length
  | _ => 0

/-- `roxmltree` `text_storage` / `text`: for an element, the text of its first
child when that child is a text node; for a text or comment node, its own
content. -/
def XNode.textStorage : XNode → Option String
  | .text s => some s
  | .comment s => some s
  | .element _ _ children =>
    match children with
    | .text s :: _ => some s
    | _ => none

/-- `api_matches` (xml.rs): [`true`] when the node's "api" attribute is absent
or the `expected` API is one of its comma-separated values. -/
def apiMatches (n : XNode) (expected : String) : Bool :=
  match n.attr? "api" with
  | some values => (splitSep ',' values.data).any (fun v => v == expected.data)
  | none => true

/-- `attribute_comma_separated` (xml.rs): the ','-separated values of the
attribute, or the empty list when the attribute is absent. -/
def attributeCommaSeparated (n : XNode) (key : String) : List String :=
  match n.attr? key with
  | some value => (splitSep ',' value.data).map (fun cs => String.mk cs)
  | none => []

/-- `attribute(node, name).unwrap()`: a missing attribute is a fatal error. -/
def attrE (n : XNode) (key : String) : Except String String :=
  match n.attr? key with
  | some v => .ok v
  | none => .error ("attribute unwrap: " ++ key)

/-- `child_text` (xml.rs): the text inside the next child element named
`name`.  When the child exists but holds no text, the source unwraps a `None`
and panics, modelled as an error. -/
def childTextE (n : XNode) (name : String) : Except String (Option String) :=
  match n.childNodes.find? (fun c => c.hasTag name) with
  | some c =>
    match c.textStorage with
    | some s => .ok (some s)
    | none => .error ("child_text unwrap: " ++ name)
  | none => .ok none

/-! ## Declarator tokens (`cdecl` module) -/

/-- Classified declarator tokens.  The `TypeName`, `ValueName`, `DeclName` and
`StrayIdent` constructors appear literally in `CDecl::from_xml` (xml.rs); the
remaining raw-text token kinds are modelled from the specification (recognized
punctuation, keywords, and numeric literals become their own token kinds). -/
inductive CTok where
  | TypeName (s : String)
  | ValueName (s : String)
  | DeclName (s : String)
  | StrayIdent (s : String)
  | Punct (c : Char)
  | Keyword (s : String)
  | Number (n : Nat)
deriving DecidableEq

/-- C keywords recognized by the raw-text lexer.  Modelled from the spec:
"keywords (`const`, `struct`, `unsigned`, etc.)". -/
def cKeywords : List String :=
  ["const", "struct", "union", "unsigned", "signed", "char", "short", "int",
   "long", "float", "double", "void", "typedef"]

/-- Punctuation recognized by the raw-text lexer.  Modelled from the spec:
"recognized punctuation (`*`, `[`, `]`, `(`, `)`, `,`, `:`)". -/
def cPunct : List Char :=
  ['*', '[', ']', '(', ')', ',', ':']

/-- Modelled from the spec: the raw-text arm of the declarator lexer
(`CTok::lex_into`, defined in the crate's `cdecl` module, whose source file is
not among the provided sources).  Identifiers become `StrayIdent` tokens (or
`Keyword` for the recognized keyword spellings), recognized punctuation and
numeric literals become their own token kinds, whitespace is skipped, and any
other character is a lex error. -/
def lexText : Nat → List Char → List CTok → Except String (List CTok)
  | 0, _, _ => .error "lex: out of fuel"
  | _ + 1, [], acc => .ok acc
  | fuel + 1, c :: rest, acc =>
    if c.isWhitespace then
      lexText fuel rest acc
    else if c ∈ cPunct then
      lexText fuel rest (acc ++ [CTok.Punct c])
    else if c.isDigit then
      let digits := c :: rest.takeWhile Char.isDigit
      lexText fuel (rest.dropWhile Char.isDigit) (acc ++ [CTok.Number (digitsVal digits)])
    else if c.isAlpha || c = '_' then
      let ident := String.mk (c :: rest.takeWhile (fun ch => ch.isAlphanum || ch = '_'))
      let tok := if ident ∈ cKeywords then CTok.Keyword ident else CTok.StrayIdent ident
      lexText fuel (rest.dropWhile (fun ch => ch.isAlphanum || ch = '_')) (acc ++ [tok])
    else
      .error "lex: unexpected character"

/-- `CTok::lex_into`: lexes a raw text run, appending the produced tokens to
the accumulator.  Modelled from the spec (see `lexText`). -/
def CTok.lexInto (s : String) (acc : List CTok) : Except String (List CTok) :=
  lexText (s.data.length + 1) s.data acc

/-- The per-token reclassification arm of the fix-up pass in `CDecl::from_xml`
(xml.rs lines 109-124): a fixed table of stray-identifier spellings is
reclassified; every other token is returned unchanged. -/
def fixupTok (tok : CTok) : CTok :=
  match tok with
  | .StrayIdent name =>
    if name = "STD_VIDEO_H264_MAX_NUM_LIST_REF" ∨ name = "STD_VIDEO_H265_MAX_NUM_LIST_REF" then
      .ValueName name
    else if name = "VkBool32" ∨ name = "PFN_vkVoidFunction" then
      .TypeName name
    else tok
  | _ => tok

/-- The `retain_mut` fix-up pass of `CDecl::from_xml` (xml.rs lines 109-135):
each token is first reclassified by the fixed table, then the stray
calling-convention identifier `VKAPI_PTR` is dropped from the stream. -/
def fixupToks (toks : List CTok) : List CTok :=
  toks.filterMap fun tok =>
    let tok := fixupTok tok
    if tok = .StrayIdent "VKAPI_PTR" then none else some tok

/-- One iteration of the token-collection loop of `CDecl::from_xml`
(xml.rs lines 84-107), appending to the token accumulator:
text runs are lexed; for element children the source first asserts the
absence of attributes, then drops `comment` elements, turns `type`/`enum`/
`name` elements holding exactly one text child into a `TypeName`/`ValueName`/
`DeclName` token, and treats any other tag as unreachable; comment nodes are
likewise unreachable. -/
def lexXmlPiece (acc : List CTok) (child : XNode) : Except String (List CTok) :=
  match child with
  | .text s => CTok.lexInto s acc
  | .comment _ => .error "unreachable node type in C declaration"
  | .element tag attrs children =>
    if attrs.length ≠ 0 then
      .error "assertion failed: element attributes in C declaration"
    else
      match tag with
      | "comment" => .ok acc
      | "type" =>
        if children.length = 1 then
          match XNode.textStorage (.element tag attrs children) with
          | some s => .ok (acc ++ [CTok.TypeName s])
          | none => .error "text unwrap in C declaration"
        else .error "assertion failed: element child count in C declaration"
      | "enum" =>
        if children.length = 1 then
          match XNode.textStorage (.element tag attrs children) with
          | some s => .ok (acc ++ [CTok.ValueName s])
          | none => .error "text unwrap in C declaration"
        else .error "assertion failed: element child count in C declaration"
      | "name" =>
        if children.length = 1 then
          match XNode.textStorage (.element tag attrs children) with
          | some s => .ok (acc ++ [CTok.DeclName s])
          | none => .error "text unwrap in C declaration"
        else .error "assertion failed: element child count in C declaration"
      | _ => .error "unexpected element in C declaration"

/-- The token-collection loop of `CDecl::from_xml` over all children. -/
def lexFromXml (children : List XNode) : Except String (List CTok) :=
  children.foldlM lexXmlPiece []

/-! ## Declarator type expressions and parser (`cdecl` module) -/

/-- An array dimension: a literal, or an `enum`-classified symbolic constant.
Modelled from the spec (the `cdecl` source file is not among the provided
sources). -/
inductive ArrayDim where
  | lit (n : Nat)
  | symbol (s : String)
deriving DecidableEq

/-- The structured type expression produced by the declarator parser.
Modelled from the spec: "a named base type, a pointer-to-X with an associated
const-qualification flag on the pointee, a fixed-size array of X with a
dimension expressed either as a literal or as a symbolic constant reference,
and a function-pointer whose own parameter list and return type are themselves
declarations recursively produced by this same parser". -/
inductive CType where
  | Name (s : String)
  | Ptr (constPointee : Bool) (pointee : CType)
  | Array (elem : CType) (dim : ArrayDim)
  | FnPtr (ret : Option CType) (params : List (String × CType))

/-- Modelled from the spec: the distinguished value `CType::VOID` that
`Command::from_node` compares the parsed prototype type against — the base
type named `void` with no pointer wrapper. -/
def CType.VOID : CType := CType.Name "void"

/-- Boolean form of the comparison `*ty != CType::VOID` used by
`Command::from_node` (xml.rs line 619). -/
def CType.eqVoid : CType → Bool
  | .Name s => s == "void"
  | _ => false

/-- The structured declaration produced by the declarator parser: the declared
identifier plus its composed type expression. -/
structure CDecl where
  name : String
  ty : CType

/-- The grammar entry point selector of the declarator parser. -/
inductive CDeclMode where
  | TypeDef
  | StructMember
  | FuncParam
deriving DecidableEq

/-- Is the token a `DeclName` token? -/
def isDeclName : CTok → Bool
  | .DeclName _ => true
  | _ => false

/-- Collects the tokens of a parenthesized parameter list up to the matching
closing parenthesis, splitting into groups at top-level commas.  Part of the
spec-modelled declarator parser. -/
def collectParams : List CTok → Nat → List CTok → List (List CTok) →
    Except String (List (List CTok) × List CTok)
  | [], _, _, _ => .error "parse: unterminated parameter list"
  | t :: rest, depth, cur, groups =>
    match t with
    | .Punct '(' => collectParams rest (depth + 1) (cur ++ [t]) groups
    | .Punct ')' =>
      if depth = 0 then .ok (groups ++ [cur], rest)
      else collectParams rest (depth - 1) (cur ++ [t]) groups
    | .Punct ',' =>
      if depth = 0 then collectParams rest depth [] (groups ++ [cur])
      else collectParams rest depth (cur ++ [t]) groups
    | _ => collectParams rest depth (cur ++ [t]) groups

/-- Consumes the pointer chain after the base type, wrapping the type in
`Ptr` constructors; a `const` keyword following a star qualifies the next
pointee.  Part of the spec-modelled declarator parser. -/
def parsePtrs (pending : Bool) (ty : CType) : List CTok → (CType × List CTok)
  | .Punct '*' :: .Keyword "const" :: rest => parsePtrs true (CType.Ptr pending ty) rest
  | .Punct '*' :: rest => parsePtrs false (CType.Ptr pending ty) rest
  | toks => (ty, toks)

/-- Consumes trailing array dimensions: each dimension is either an integer
literal or an `enum`-classified symbolic constant; anything else is a parse
error.  Part of the spec-modelled declarator parser. -/
def parseArrays (ty : CType) : List CTok → Except String (CType × List CTok)
  | .Punct '[' :: .Number n :: .Punct ']' :: rest =>
    parseArrays (CType.Array ty (.lit n)) rest
  | .Punct '[' :: .ValueName v :: .Punct ']' :: rest =>
    parseArrays (CType.Array ty (.symbol v)) rest
  | .Punct '[' :: _ => .error "parse: malformed array dimension"
  | toks => .ok (ty, toks)

/-- Modelled from the spec: `CDecl::parse` (defined in the crate's `cdecl`
module, whose source file is not among the provided sources).  One
recursive-descent grammar parameterized by mode: exactly one `DeclName` token
must be present; the base type is named by the `TypeName` token, wrapped by
the pointer/qualifier chain; the declarator core is either the declared name
or a parenthesized function-pointer declarator whose parameter declarations
are parsed recursively; `StructMember` and `FuncParam` modes additionally
permit trailing array dimensions and a bitfield width; leftover tokens are a
parse error. -/
def parseCore : Nat → CDeclMode → List CTok → Except String CDecl
  | 0, _, _ => .error "parse: out of fuel"
  | fuel + 1, mode, toks0 =>
    if (toks0.filter isDeclName).length ≠ 1 then .error "parse: DeclName count"
    else
      let (c0, toks1) := match toks0 with
        | .Keyword "const" :: rest => (true, rest)
        | other => (false, other)
      let toks2 := match toks1 with
        | .Keyword "struct" :: rest => rest
        | other => other
      match toks2 with
      | .TypeName base :: toks3 =>
        let (ty, toks4) := parsePtrs c0 (CType.Name base) toks3
        match toks4 with
        | .DeclName n :: rest =>
          match mode with
          | .TypeDef =>
            if rest.isEmpty then .ok ⟨n, ty⟩ else .error "parse: leftover tokens"
          | _ => do
            let (ty, rest) ← parseArrays ty rest
            let rest := match rest with
              | .Punct ':' :: .Number _ :: more => more
              | other => other
            if rest.isEmpty then .ok ⟨n, ty⟩ else .error "parse: leftover tokens"
        | .Punct '(' :: .Punct '*' :: .DeclName n :: .Punct ')' :: .Punct '(' :: rest => do
          let (groups, rest2) ← collectParams rest 0 [] []
          let params ←
            if groups = [[CTok.TypeName "void"]] then
              .ok []
            else
              groups.mapM (fun g => do
                let d ← parseCore fuel .FuncParam g
                .ok (d.name, d.ty))
          if rest2.isEmpty then
            .ok ⟨n, CType.FnPtr (if ty.eqVoid then none else some ty) params⟩
          else .error "parse: leftover tokens"
        | _ => .error "parse: malformed declarator"
      | _ => .error "parse: expected base type name"

/-- `CDecl::parse` entry point (spec-modelled, see `parseCore`). -/
def CDecl.parse (mode : CDeclMode) (toks : List CTok) : Except String CDecl :=
  parseCore (toks.length + 1) mode toks

/-- `CDecl::from_xml` (xml.rs lines 81-138): lex the mixed children into
tokens, apply the fix-up pass, and parse. -/
def CDecl.fromXml (mode : CDeclMode) (children : List XNode) : Except String CDecl := do
  let toks ← lexFromXml children
  CDecl.parse mode (fixupToks toks)

/-! ## Registry entity model (xml.rs)

Rust `unwrap` panics on missing attributes or failed numeric parses are
modelled as `Except.error`; `XmlStr` values become `String`. -/

namespace Xml

/-- `xml::Alias`. -/
structure Alias where
  name : String
  alias_ : String

/-- `Alias::from_node`. -/
def Alias.fromNode (node : XNode) : Except String Alias := do
  let name ← attrE node "name"
  let aliasValue ← attrE node "alias"
  .ok ⟨name, aliasValue⟩

/-- `xml::External`. -/
structure External where
  name : String
  requires_ : Option String

/-- `External::from_node`. -/
def External.fromNode (node : XNode) : Except String External := do
  let name ← attrE node "name"
  .ok ⟨name, node.attr? "requires"⟩

/-- `xml::BaseType`. -/
structure BaseType where
  name : String
  ty : Option String

/-- `BaseType::from_node`. -/
def BaseType.fromNode (node : XNode) : Except String BaseType := do
  let nameOpt ← childTextE node "name"
  match nameOpt with
  | none => .error "child_text unwrap: basetype name"
  | some name => do
    let ty ← childTextE node "type"
    .ok ⟨name, ty⟩

/-- `xml::BitMaskType`. -/
structure BitMaskType where
  requires_ : Option String
  bitvalues : Option String
  ty : String
  name : String

/-- `BitMaskType::from_node`. -/
def BitMaskType.fromNode (node : XNode) : Except String BitMaskType := do
  let tyOpt ← childTextE node "type"
  let nameOpt ← childTextE node "name"
  match tyOpt, nameOpt with
  | some ty, some name => .ok ⟨node.attr? "requires", node.attr? "bitvalues", ty, name⟩
  | _, _ => .error "child_text unwrap: bitmask type"

/-- `xml::Handle`. -/
structure Handle where
  parent : Option String
  objtypeenum : String
  ty : String
  name : String

/-- `Handle::from_node`. -/
def Handle.fromNode (node : XNode) : Except String Handle := do
  let objtypeenum ← attrE node "objtypeenum"
  let tyOpt ← childTextE node "type"
  let nameOpt ← childTextE node "name"
  match tyOpt, nameOpt with
  | some ty, some name => .ok ⟨node.attr? "parent", objtypeenum, ty, name⟩
  | _, _ => .error "child_text unwrap: handle"

/-- `xml::EnumType`. -/
structure EnumType where
  name : String

/-- `EnumType::from_node`. -/
def EnumType.fromNode (node : XNode) : Except String EnumType := do
  let name ← attrE node "name"
  .ok ⟨name⟩

/-- `xml::FuncPointer`. -/
structure FuncPointer where
  c_decl : CDecl
  requires_ : Option String

/-- `FuncPointer::from_node`. -/
def FuncPointer.fromNode (node : XNode) : Except String FuncPointer := do
  let c_decl ← CDecl.fromXml .TypeDef node.childNodes
  .ok ⟨c_decl, node.attr? "requires"⟩

/-- `xml::StructureMember`. -/
structure StructureMember where
  c_decl : CDecl
  values : Option String
  len : List String
  altlen : List String
  optional : List String

/-- `StructureMember::from_node`. -/
def StructureMember.fromNode (node : XNode) : Except String StructureMember := do
  let c_decl ← CDecl.fromXml .StructMember node.childNodes
  .ok ⟨c_decl, node.attr? "values", attributeCommaSeparated node "len",
       attributeCommaSeparated node "altlen", attributeCommaSeparated node "optional"⟩

/-- `xml::Structure` (also used for unions, distinguished only by which
registry sequence holds it). -/
structure Structure where
  name : String
  structextends : List String
  members : List StructureMember

/-- `Structure::from_node`. -/
def Structure.fromNode (node : XNode) (api : String) : Except String Structure := do
  let name ← attrE node "name"
  let members ← (node.childNodes.filter
      (fun n => n.hasTag "member" && apiMatches n api)).mapM StructureMember.fromNode
  .ok ⟨name, attributeCommaSeparated node "structextends", members⟩

/-- `xml::Constant`. -/
structure Constant where
  ty : String
  value : String
  name : String

/-- `Constant::from_node`. -/
def Constant.fromNode (node : XNode) : Except String Constant := do
  let ty ← attrE node "type"
  let value ← attrE node "value"
  let name ← attrE node "name"
  .ok ⟨ty, value, name⟩

/-- `xml::EnumValue`. -/
structure EnumValue where
  value : String
  name : String

/-- `EnumValue::from_node`. -/
def EnumValue.fromNode (node : XNode) : Except String EnumValue := do
  let value ← attrE node "value"
  let name ← attrE node "name"
  .ok ⟨value, name⟩

/-- `xml::Enum`. -/
structure Enum where
  name : String
  values : List EnumValue
  aliases : List Alias

/-- `Enum::from_node`. -/
def Enum.fromNode (node : XNode) (api : String) : Except String Enum := do
  let name ← attrE node "name"
  let acc ← (node.childNodes.filter
      (fun n => n.hasTag "enum" && apiMatches n api)).foldlM
    (fun (acc : List EnumValue × List Alias) variant =>
      if variant.hasAttr "alias" then do
        let a ← Alias.fromNode variant
        .ok (acc.1, acc.2 ++ [a])
      else do
        let v ← EnumValue.fromNode variant
        .ok (acc.1 ++ [v], acc.2))
    ([], [])
  .ok ⟨name, acc.1, acc.2⟩

/-- `xml::BitMaskBit`. -/
structure BitMaskBit where
  bitpos : String
  name : String

/-- `BitMaskBit::from_node`. -/
def BitMaskBit.fromNode (node : XNode) : Except String BitMaskBit := do
  let bitpos ← attrE node "bitpos"
  let name ← attrE node "name"
  .ok ⟨bitpos, name⟩

/-- `xml::BitMask`. -/
structure BitMask where
  name : String
  bits : List BitMaskBit
  values : List EnumValue
  aliases : List Alias

/-- `BitMask::from_node`. -/
def BitMask.fromNode (node : XNode) (api : String) : Except String BitMask := do
  let name ← attrE node "name"
  let acc ← (node.childNodes.filter
      (fun n => n.hasTag "enum" && apiMatches n api)).foldlM
    (fun (acc : List BitMaskBit × List EnumValue × List Alias) variant =>
      if variant.hasAttr "alias" then do
        let a ← Alias.fromNode variant
        .ok (acc.1, acc.2.1, acc.2.2 ++ [a])
      else if variant.hasAttr "value" then do
        let v ← EnumValue.fromNode variant
        .ok (acc.1, acc.2.1 ++ [v], acc.2.2)
      else do
        let b ← BitMaskBit.fromNode variant
        .ok (acc.1 ++ [b], acc.2.1, acc.2.2))
    ([], [], [])
  .ok ⟨name, acc.1, acc.2.1, acc.2.2⟩

/-- `xml::CommandParam`. -/
structure CommandParam where
  c_decl : CDecl
  len : List String
  altlen : List String
  optional : List String

/-- `CommandParam::from_node`. -/
def CommandParam.fromNode (node : XNode) : Except String CommandParam := do
  let c_decl ← CDecl.fromXml .FuncParam node.childNodes
  .ok ⟨c_decl, attributeCommaSeparated node "len",
       attributeCommaSeparated node "altlen", attributeCommaSeparated node "optional"⟩

/-- `xml::Command`. -/
structure Command where
  return_type : Option CType
  name : String
  params : List CommandParam

/-- The return-type computation of `Command::from_node` (xml.rs line 619):
`Some(proto_cdecl.ty).filter(|ty| *ty != CType::VOID)` — the parsed prototype
type is kept unless it is exactly `CType::VOID`. -/
def Command.returnTypeFrom (ty : CType) : Option CType :=
  if ty.eqVoid then none else some ty

/-- `Command::from_node`: the first `proto` child is located (and must pass
the api filter, else the source unwraps `None`), its declarator parsed in
struct-member mode, and the parameters collected from the api-matching
`param` children. -/
def Command.fromNode (node : XNode) (api : String) : Except String Command :=
  match node.childNodes.find? (fun c => c.hasTag "proto") with
  | none => .error "proto unwrap"
  | some proto =>
    if apiMatches proto api then do
      let protoCdecl ← CDecl.fromXml .StructMember proto.childNodes
      let params ← (node.childNodes.filter
          (fun c => c.hasTag "param" && apiMatches c api)).mapM CommandParam.fromNode
      .ok ⟨Command.returnTypeFrom protoCdecl.ty, protoCdecl.name, params⟩
    else .error "proto unwrap"

/-- `xml::RequireConstant`. -/
structure RequireConstant where
  name : String
  value : Option String

/-- `RequireConstant::from_node`. -/
def RequireConstant.fromNode (node : XNode) : Except String RequireConstant := do
  let name ← attrE node "name"
  .ok ⟨name, node.attr? "value"⟩

/-- `xml::RequireEnumVariant` (the `offset` attribute is parsed as `u8`). -/
structure RequireEnumVariant where
  name : String
  offset : Nat
  extends_ : String

/-- `RequireEnumVariant::from_node`. -/
def RequireEnumVariant.fromNode (node : XNode) : Except String RequireEnumVariant := do
  let name ← attrE node "name"
  let offsetStr ← attrE node "offset"
  let extends_ ← attrE node "extends"
  match parseU8 offsetStr.data with
  | some offset => .ok ⟨name, offset, extends_⟩
  | none => .error "parse unwrap: offset"

/-- `xml::RequireBitPos` (the `bitpos` attribute is parsed as `u8`). -/
structure RequireBitPos where
  name : String
  bitpos : Nat
  extends_ : String

/-- `RequireBitPos::from_node`. -/
def RequireBitPos.fromNode (node : XNode) : Except String RequireBitPos := do
  let name ← attrE node "name"
  let bitposStr ← attrE node "bitpos"
  let extends_ ← attrE node "extends"
  match parseU8 bitposStr.data with
  | some bitpos => .ok ⟨name, bitpos, extends_⟩
  | none => .error "parse unwrap: bitpos"

/-- `xml::RequireType`. -/
structure RequireType where
  name : String

/-- `RequireType::from_node`. -/
def RequireType.fromNode (node : XNode) : Except String RequireType := do
  let name ← attrE node "name"
  .ok ⟨name⟩

/-- `xml::RequireCommand`. -/
structure RequireCommand where
  name : String

/-- `RequireCommand::from_node`. -/
def RequireCommand.fromNode (node : XNode) : Except String RequireCommand := do
  let name ← attrE node "name"
  .ok ⟨name⟩

/-- `xml::Version`. -/
structure Version where
  major : Nat
  minor : Nat
deriving DecidableEq

/-- `Version::from_str` (xml.rs lines 713-724): strips the literal
`VK_VERSION_` prefix, splits the remainder at underscores, keeps the segments
that parse as `u32` (`flat_map(str::parse)` silently drops the others), and
succeeds exactly when two parsed numbers remain. -/
def Version.fromStr (s : List Char) : Option Version :=
  match dropPfx "VK_VERSION_".data s with
  | none => none
  | some rest =>
    match (splitSep '_' rest).filterMap parseU32 with
    | [major, minor] => some ⟨major, minor⟩
    | _ => none

/-- `xml::Depends`. -/
inductive Depends where
  | version (v : Version)
  | extension (name : String)

/-- `Depends::from_str`. -/
def Depends.fromStr (s : String) : Depends :=
  match Version.fromStr s.data with
  | some v => .version v
  | none => .extension s

/-- `xml::Require` (derives `Default` in the source). -/
structure Require where
  depends : List Depends := []
  enum_variants : List RequireEnumVariant := []
  bitpositions : List RequireBitPos := []
  constants : List RequireConstant := []
  types : List RequireType := []
  commands : List RequireCommand := []

/-- `Require::from_node`: the `depends` attribute is split at commas; the
api-matching children are dispatched on tag (an `enum` child with an `offset`
attribute is a new enum variant, with a `bitpos` attribute a new bit position,
otherwise a constant; `type` and `command` children are references; anything
else is ignored). -/
def Require.fromNode (node : XNode) (api : String) : Except String Require := do
  let depends := match node.attr? "depends" with
    | some value => ((splitSep ',' value.data).map (fun cs => String.mk cs)).map Depends.fromStr
    | none => []
  (node.childNodes.filter (fun n => apiMatches n api)).foldlM
    (fun (acc : Require) child =>
      match child.tagName with
      | "enum" =>
        if child.hasAttr "offset" then do
          let v ← RequireEnumVariant.fromNode child
          .ok { acc with enum_variants := acc.enum_variants ++ [v] }
        else if child.hasAttr "bitpos" then do
          let b ← RequireBitPos.fromNode child
          .ok { acc with bitpositions := acc.bitpositions ++ [b] }
        else do
          let c ← RequireConstant.fromNode child
          .ok { acc with constants := acc.constants ++ [c] }
      | "type" => do
        let t ← RequireType.fromNode child
        .ok { acc with types := acc.types ++ [t] }
      | "command" => do
        let c ← RequireCommand.fromNode child
        .ok { acc with commands := acc.commands ++ [c] }
      | _ => .ok acc)
    { depends }

/-- `xml::Feature`. -/
structure Feature where
  name : String
  version : Version
  requires : List Require

/-- `Feature::from_node` (xml.rs lines 793-808): the version is parsed from
the `name` attribute (`Version::from_str(&name).unwrap()` — failure is fatal),
and the api-matching `require` children are collected. -/
def Feature.fromNode (node : XNode) (api : String) : Except String Feature := do
  let name ← attrE node "name"
  match Version.fromStr name.data with
  | none => .error "version unwrap: feature name"
  | some version => do
    let requires ← (node.childNodes.filter
        (fun n => n.hasTag "require" && apiMatches n api)).mapM (Require.fromNode · api)
    .ok ⟨name, version, requires⟩

/-- `xml::Extension` (the `number` attribute, when present, is parsed as
`u32`, with failure fatal). -/
structure Extension where
  name : String
  number : Option Nat
  ty : Option String
  requires : List Require

/-- `Extension::from_node`. -/
def Extension.fromNode (node : XNode) (api : String) : Except String Extension := do
  let name ← attrE node "name"
  let number ← match node.attr? "number" with
    | some value =>
      match parseU32 value.data with
      | some n => .ok (some n)
      | none => .error "parse unwrap: extension number"
    | none => .ok none
  let requires ← (node.childNodes.filter
      (fun n => n.hasTag "require" && apiMatches n api)).mapM (Require.fromNode · api)
  .ok ⟨name, number, node.attr? "type", requires⟩

/-- `xml::Registry` (derives `Default` in the source: every sequence starts
empty). -/
structure Registry where
  externals : List External := []
  basetypes : List BaseType := []
  bitmask_types : List BitMaskType := []
  bitmask_aliases : List Alias := []
  handles : List Handle := []
  handle_aliases : List Alias := []
  enum_types : List EnumType := []
  enum_aliases : List Alias := []
  funcpointers : List FuncPointer := []
  structs : List Structure := []
  struct_aliases : List Alias := []
  unions : List Structure := []
  constants : List Constant := []
  constant_aliases : List Alias := []
  enums : List Enum := []
  bitmasks : List BitMask := []
  commands : List Command := []
  command_aliases : List Alias := []
  features : List Feature := []
  extensions : List Extension := []

/-- The per-`type`-node dispatch of `Registry::from_node` (xml.rs lines
186-231): nodes with an `alias` attribute go to the category's alias sequence
(unrecognized categories ignored); otherwise the `category` attribute selects
the entity builder, a missing category records an `External`, and an
unrecognized category is ignored.  No duplicate-name check is performed — the
entry is appended unconditionally. -/
def Registry.addType (reg : Registry) (node : XNode) (api : String) : Except String Registry :=
  if node.hasAttr "alias" then
    match node.attr? "category" with
    | some "bitmask" => do
      let a ← Alias.fromNode node
      .ok { reg with bitmask_aliases := reg.bitmask_aliases ++ [a] }
    | some "handle" => do
      let a ← Alias.fromNode node
      .ok { reg with handle_aliases := reg.handle_aliases ++ [a] }
    | some "enum" => do
      let a ← Alias.fromNode node
      .ok { reg with enum_aliases := reg.enum_aliases ++ [a] }
    | some "struct" => do
      let a ← Alias.fromNode node
      .ok { reg with struct_aliases := reg.struct_aliases ++ [a] }
    | _ => .ok reg
  else
    match node.attr? "category" with
    | some "basetype" => do
      let b ← BaseType.fromNode node
      .ok { reg with basetypes := reg.basetypes ++ [b] }
    | some "bitmask" => do
      let b ← BitMaskType.fromNode node
      .ok { reg with bitmask_types := reg.bitmask_types ++ [b] }
    | some "handle" => do
      let h ← Handle.fromNode node
      .ok { reg with handles := reg.handles ++ [h] }
    | some "enum" => do
      let e ← EnumType.fromNode node
      .ok { reg with enum_types := reg.enum_types ++ [e] }
    | some "funcpointer" => do
      let f ← FuncPointer.fromNode node
      .ok { reg with funcpointers := reg.funcpointers ++ [f] }
    | some "struct" => do
      let s ← Structure.fromNode node api
      .ok { reg with structs := reg.structs ++ [s] }
    | some "union" => do
      let s ← Structure.fromNode node api
      .ok { reg with unions := reg.unions ++ [s] }
    | some _ => .ok reg
    | none => do
      let e ← External.fromNode node
      .ok { reg with externals := reg.externals ++ [e] }

/-- The `supported` filter applied to extension nodes (xml.rs lines 290-294). -/
def supportedMatches (n : XNode) (api : String) : Bool :=
  match n.attr? "supported" with
  | some values => (splitSep ',' values.data).any (fun v => v == api.data)
  | none => true

/-- The per-top-level-section dispatch of `Registry::from_node` (xml.rs lines
178-305): `types`, `enums`, `commands`, `feature` and `extensions` sections
are processed; unrecognized sections are ignored without error. -/
def Registry.addSection (reg : Registry) (child : XNode) (api : String) : Except String Registry :=
  match child.tagName with
  | "types" =>
    (child.childNodes.filter
        (fun n => n.hasTag "type" && apiMatches n api)).foldlM
      (fun r tn => r.addType tn api) reg
  | "enums" =>
    match child.attr? "type" with
    | some "enum" => do
      let e ← Enum.fromNode child api
      .ok { reg with enums := reg.enums ++ [e] }
    | some "bitmask" => do
      let b ← BitMask.fromNode child api
      .ok { reg with bitmasks := reg.bitmasks ++ [b] }
    | none =>
      if child.attr? "name" = some "API Constants" then
        (child.childNodes.filter
            (fun n => n.hasTag "enum" && apiMatches n api)).foldlM
          (fun r en =>
            if en.hasAttr "alias" then do
              let a ← Alias.fromNode en
              .ok { r with constant_aliases := r.constant_aliases ++ [a] }
            else do
              let c ← Constant.fromNode en
              .ok { r with constants := r.constants ++ [c] })
          reg
      else .ok reg
    | some _ => .ok reg
  | "commands" =>
    (child.childNodes.filter
        (fun n => n.hasTag "command" && apiMatches n api)).foldlM
      (fun r cn =>
        if cn.hasAttr "alias" then do
          let a ← Alias.fromNode cn
          .ok { r with command_aliases := r.command_aliases ++ [a] }
        else do
          let c ← Command.fromNode cn api
          .ok { r with commands := r.commands ++ [c] })
      reg
  | "feature" => do
    let f ← Feature.fromNode child api
    .ok { reg with features := reg.features ++ [f] }
  | "extensions" =>
    (child.childNodes.filter
        (fun n => n.hasTag "extension" && supportedMatches n api)).foldlM
      (fun r en => do
        let e ← Extension.fromNode en api
        .ok { r with extensions := r.extensions ++ [e] })
      reg
  | _ => .ok reg

/-- `Registry::from_node` (xml.rs lines 172-309): every api-matching child of
the registry root is dispatched by tag. -/
def Registry.fromNode (registryNode : XNode) (api : String) : Except String Registry :=
  (registryNode.childNodes.filter (fun n => apiMatches n api)).foldlM
    (fun reg child => reg.addSection child api) {}

end Xml

/-! ## Item catalogue and origin resolver (lib.rs, items/mod.rs,
items/structures.rs) -/

/-- `LibraryId` (lib.rs). -/
inductive LibraryId where
  | Vk
  | Video
deriving DecidableEq

/-- `items::RequiredBy`. -/
inductive RequiredBy where
  | feature (major : Nat) (minor : Nat)
  | extension (name : String)
deriving DecidableEq

/-- `items::Origin`. -/
structure Origin where
  library_id : LibraryId
  required_by : RequiredBy
deriving DecidableEq

/-- `items::structures::Structure`: one catalogued item, wrapping the parsed
structure's name together with its resolved origin. -/
structure ItemStructure where
  origin : Origin
  name : String
deriving DecidableEq

/-- `Structure::new` (items/structures.rs). -/
def ItemStructure.new (origin : Origin) (xml : Xml.Structure) : ItemStructure :=
  ⟨origin, xml.name⟩

/-- `items::Items`: the merged catalogue.  The `IndexMap` is modelled as an
insertion-ordered association list whose keys are kept unique by the
collection pass. -/
structure Items where
  structures : List (String × ItemStructure) := []
deriving DecidableEq

/-- `Library` (lib.rs). -/
structure Library where
  id : LibraryId
  xml : Xml.Registry

/-- `HashMap::insert` on the name-to-`RequiredBy` map: the new value replaces
any previous binding for the key. -/
def mapInsert (m : String → Option RequiredBy) (k : String) (v : RequiredBy) :
    String → Option RequiredBy :=
  fun q => if q = k then some v else m q

/-- The map-building phase of `Library::collect_into` (lib.rs lines 99-125):
every feature's and then every extension's `Require.types` entries are
inserted into one `HashMap` in document order. -/
def Library.typesRequireMap (library : Library) : String → Option RequiredBy :=
  let map0 : String → Option RequiredBy := fun _ => none
  let map1 := library.xml.features.foldl
    (fun m f =>
      let requiredBy := RequiredBy.feature f.version.major f.version.minor
      f.requires.foldl
        (fun m r => r.types.foldl (fun m t => mapInsert m t.name requiredBy) m) m)
    map0
  library.xml.extensions.foldl
    (fun m e =>
      let requiredBy := RequiredBy.extension e.name
      e.requires.foldl
        (fun m r => r.types.foldl (fun m t => mapInsert m t.name requiredBy) m) m)
    map1

/-- The loop of `Items::collect` (items/mod.rs lines 26-45) over the
registry's structure sequence: a structure whose name is absent from the map
is skipped; otherwise an origin-tagged item is built and inserted into the
catalogue, and the `assert!(... .is_none())` on the insertion result makes a
pre-existing key a fatal error. -/
def Items.collectAux (library : Library) (trm : String → Option RequiredBy) :
    List Xml.Structure → Items → Except String Items
  | [], items => .ok items
  | st :: rest, items =>
    match trm st.name with
    | none => Items.collectAux library trm rest items
    | some requiredBy =>
      if items.structures.any (fun p => p.1 == st.name) then
        .error "assertion failed: duplicate item in merged catalogue"
      else
        Items.collectAux library trm rest
          ⟨items.structures ++ [(st.name, ItemStructure.new ⟨library.id, requiredBy⟩ st)]⟩

/-- `Items::collect`. -/
def Items.collect (items : Items) (library : Library)
    (typesRequireMap : String → Option RequiredBy) : Except String Items :=
  Items.collectAux library typesRequireMap library.xml.structs items

/-- `Library::collect_into` (lib.rs lines 99-128): build the name-to-origin
map, then collect the library's required structures into the catalogue. -/
def Library.collectInto (library : Library) (items : Items) : Except String Items :=
  items.collect library library.typesRequireMap

/-- The flattened, document-order sequence of `(type name, RequiredBy)`
entries scanned by `Library::collect_into`: features in document order, then
extensions in document order, each contributing its `Require.types` entries
in order.  Reference flattening used to state theorems about the resolver. -/
def Library.requireEntries (library : Library) : List (String × RequiredBy) :=
  (library.xml.features.flatMap fun f =>
    f.requires.flatMap fun r =>
      r.types.map fun t => (t.name, RequiredBy.feature f.version.major f.version.minor))
  ++ (library.xml.extensions.flatMap fun e =>
    e.requires.flatMap fun r =>
      r.types.map fun t => (t.name, RequiredBy.extension e.name))

/-- The item-collection phase of `Analysis::new` (lib.rs lines 27-29): the
first library's structures are collected into an empty catalogue, then the
second library's structures are collected into the same catalogue. -/
def analysisItems (vk video : Library) : Except String Items := do
  let items ← vk.collectInto {}
  video.collectInto items

/-! ## Concrete instances used to evaluate the model -/

/-- Did the computation abort with a fatal error? -/
def exceptErrored {α : Type} : Except String α → Bool
  | .error _ => true
  | .ok _ => false

/-- A `type` element with `category="enum"` and a fixed name. -/
def dupTypeNode : XNode :=
  .element "type" [("category", "enum"), ("name", "VkFoo")] []

/-- A registry document whose `types` section holds two `type` elements with
the same `name` and the same `category`. -/
def dupTypeDoc : XNode :=
  .element "registry" [] [.element "types" [] [dupTypeNode, dupTypeNode]]

/-- A registry document with the same duplicated `type` element, with the
duplicated name left as a parameter. -/
def dupTypeDocNamed (name : String) : XNode :=
  .element "registry" []
    [.element "types" []
      [.element "type" [("category", "enum"), ("name", name)] [],
       .element "type" [("category", "enum"), ("name", name)] []]]

/-- A library whose registry holds feature `1.0` and then feature `1.1`, both
requiring the type `VkFoo` (feature `1.0` first in document order). -/
def twoFeatureLib : Library :=
  { id := .Vk,
    xml := { features := [
      { name := "VK_VERSION_1_0", version := ⟨1, 0⟩,
        requires := [{ types := [⟨"VkFoo"⟩] }] },
      { name := "VK_VERSION_1_1", version := ⟨1, 1⟩,
        requires := [{ types := [⟨"VkFoo"⟩] }] }] } }

/-- A library defining structures `VkA` and `VkB`, of which only `VkA` is
required (by feature `1.0`). -/
def sampleLibA : Library :=
  { id := .Vk,
    xml := { structs := [⟨"VkA", [], []⟩, ⟨"VkB", [], []⟩],
             features := [
               { name := "VK_VERSION_1_0", version := ⟨1, 0⟩,
                 requires := [{ types := [⟨"VkA"⟩] }] }] } }

/-- A catalogue already holding an entry under the name `VkA`. -/
def sampleItemsWithA : Items :=
  ⟨[("VkA", ⟨⟨.Video, .feature 1 0⟩, "VkA"⟩)]⟩

/-- A name-to-origin map requiring exactly `VkA`. -/
def sampleMapA : String → Option RequiredBy :=
  fun n => if n = "VkA" then some (.feature 1 0) else none

/-- A second library with an empty registry. -/
def sampleLibEmpty : Library :=
  { id := .Video, xml := {} }

/-- The catalogue produced by collecting `sampleLibA` into an empty
catalogue. -/
def sampleCollectResult : Items :=
  ⟨[("VkA", ⟨⟨.Vk, .feature 1 0⟩, "VkA"⟩)]⟩

/-! ## Theorems -/

/-- C6: the "applies to this API" predicate accepts a node exactly when its
`api` attribute is absent, or the target API string is equal to at least one
of the attribute's comma-separated values. -/
theorem c6_api_matches_iff (n : XNode) (expected : String) :
    apiMatches n expected = true ↔
      n.attr? "api" = none ∨
        ∃ values, n.attr? "api" = some values ∧ expected.data ∈ splitSep ',' values.data := by
  unfold apiMatches
  cases h : n.attr? "api" with
  | none => simp
  | some values =>
    simp only [h, Option.some.injEq, reduceCtorEq, false_or]
    rw [List.any_eq_true]
    constructor
    · rintro ⟨v, hv, hbeq⟩
      exact ⟨values, rfl, eq_of_beq hbeq ▸ hv⟩
    · rintro ⟨values2, hv2, hmem⟩
      cases hv2
      exact ⟨expected.data, hmem, beq_self_eq_true _⟩

/-- C4: a command prototype whose parsed base type is exactly `void` with no
pointer wrapper yields an absent return type, and any other parsed type —
including pointer-to-void — is kept as a present return type. -/
theorem c4_void_return_detection (ty : CType) :
    (Xml.Command.returnTypeFrom ty = none ↔ ty = CType.VOID) ∧
      CType.VOID = CType.Name "void" ∧
      (∀ c p, Xml.Command.returnTypeFrom (CType.Ptr c p) = some (CType.Ptr c p)) := by
  refine ⟨?_, rfl, fun c p => rfl⟩
  cases ty with
  | Name s =>
    by_cases h : s = "void"
    · subst h
      simp [Xml.Command.returnTypeFrom, CType.eqVoid, CType.VOID]
    · simp [Xml.Command.returnTypeFrom, CType.eqVoid, CType.VOID, h]
  | Ptr c p => simp [Xml.Command.returnTypeFrom, CType.eqVoid, CType.VOID]
  | Array e d => simp [Xml.Command.returnTypeFrom, CType.eqVoid, CType.VOID]
  | FnPtr r p => simp [Xml.Command.returnTypeFrom, CType.eqVoid, CType.VOID]

/-- C2 counterexample: a document whose `types` section holds two `type`
elements with the same `name` and the same `category` does NOT abort
ingestion — `Registry::from_node` succeeds and records both entries in the
category sequence. -/
theorem c2_duplicate_accepted_counterexample :
    Xml.Registry.fromNode dupTypeDoc "vulkan" =
      .ok { enum_types := [⟨"VkFoo"⟩, ⟨"VkFoo"⟩] } :=
  rfl

/-- C2 amended: within one registry, inserting an entity name twice into the
same category sequence is not rejected during ingestion: for every name, a
document with two `type` elements sharing that `name` and the same `category`
parses successfully, and both entries are appended to the category sequence. -/
theorem c2_duplicates_not_rejected (name : String) :
    Xml.Registry.fromNode (dupTypeDocNamed name) "vulkan" =
      .ok { enum_types := [⟨name⟩, ⟨name⟩] } :=
  rfl

/-- The four stray-identifier spellings reclassified by the fix-up table. -/
theorem fixupTok_eq_self_of_not_stray (t : CTok) (h : ∀ s, t ≠ CTok.StrayIdent s) :
    fixupTok t = t := by
  cases t with
  | StrayIdent s => exact absurd rfl (h s)
  | TypeName s => rfl
  | ValueName s => rfl
  | DeclName s => rfl
  | Punct c => rfl
  | Keyword s => rfl
  | Number n => rfl

/-- C8: the post-lex fix-up pass is exactly a pointwise reclassification
(driven by the fixed four-spelling table) followed by removal of the stray
identifier `VKAPI_PTR`: the stream equals the mapped-then-filtered stream
(hence relative order of the remaining tokens is preserved); the table
reclassifies exactly the four listed spellings; every other stray identifier
and every non-stray token is left unchanged; and nothing else is ever turned
into the removed spelling. -/
theorem c8_fixup_pass_exact (toks : List CTok) (s : String) (t : CTok) :
    (fixupToks toks =
      (toks.map fixupTok).filter (fun u => u ≠ CTok.StrayIdent "VKAPI_PTR")) ∧
    fixupTok (.StrayIdent "STD_VIDEO_H264_MAX_NUM_LIST_REF") =
      .ValueName "STD_VIDEO_H264_MAX_NUM_LIST_REF" ∧
    fixupTok (.StrayIdent "STD_VIDEO_H265_MAX_NUM_LIST_REF") =
      .ValueName "STD_VIDEO_H265_MAX_NUM_LIST_REF" ∧
    fixupTok (.StrayIdent "VkBool32") = .TypeName "VkBool32" ∧
    fixupTok (.StrayIdent "PFN_vkVoidFunction") = .TypeName "PFN_vkVoidFunction" ∧
    (s ∉ (["STD_VIDEO_H264_MAX_NUM_LIST_REF", "STD_VIDEO_H265_MAX_NUM_LIST_REF",
           "VkBool32", "PFN_vkVoidFunction"] : List String) →
      fixupTok (.StrayIdent s) = .StrayIdent s) ∧
    ((∀ u, t ≠ CTok.StrayIdent u) → fixupTok t = t) ∧
    (fixupTok t = .StrayIdent "VKAPI_PTR" → t = .StrayIdent "VKAPI_PTR") := by
  refine ⟨?_, rfl, rfl, rfl, rfl, ?_, fixupTok_eq_self_of_not_stray t, ?_⟩
  · induction toks with
    | nil => rfl
    | cons hd tl ih =>
      by_cases h : fixupTok hd = CTok.StrayIdent "VKAPI_PTR"
      · simp [fixupToks, List.filterMap_cons, h] at ih ⊢
        exact ih
      · simp [fixupToks, List.filterMap_cons, h] at ih ⊢
        exact ih
  · intro hs
    simp only [List.mem_cons, List.not_mem_nil, or_false, not_or] at hs
    obtain ⟨h1, h2, h3, h4⟩ := hs
    simp [fixupTok, h1, h2, h3, h4]
  · intro h
    cases t with
    | StrayIdent u =>
      by_cases h1 : u = "STD_VIDEO_H264_MAX_NUM_LIST_REF" ∨ u = "STD_VIDEO_H265_MAX_NUM_LIST_REF"
      · simp [fixupTok, h1] at h
      · by_cases h2 : u = "VkBool32" ∨ u = "PFN_vkVoidFunction"
        · simp [fixupTok, h1, h2] at h
        · simpa [fixupTok, h1, h2] using h
    | TypeName u => simp [fixupTok] at h
    | ValueName u => simp [fixupTok] at h
    | DeclName u => simp [fixupTok] at h
    | Punct c => simp [fixupTok] at h
    | Keyword u => simp [fixupTok] at h
    | Number n => simp [fixupTok] at h

/-- C8 witness: the fix-up pass evaluated at a concrete token stream, an
unlisted stray identifier, and a non-identifier token. -/
theorem c8_fixup_pass_exact_witness :
    fixupToks [CTok.StrayIdent "VkBool32", CTok.Punct '*', CTok.StrayIdent "VKAPI_PTR",
               CTok.DeclName "x"] =
      [CTok.TypeName "VkBool32", CTok.Punct '*', CTok.DeclName "x"] ∧
    fixupTok (.StrayIdent "foo") = .StrayIdent "foo" ∧
    fixupTok (.Number 3) = .Number 3 := by
  have h := c8_fixup_pass_exact
    [CTok.StrayIdent "VkBool32", CTok.Punct '*', CTok.StrayIdent "VKAPI_PTR", CTok.DeclName "x"]
    "foo" (CTok.Number 3)
  refine ⟨h.1.trans (by decide), h.2.2.2.2.2.1 (by decide), h.2.2.2.2.2.2.1 ?_⟩
  intro u
  simp

/-- C7 counterexample: a `comment` child element carrying an attribute does
NOT silently contribute no token — the lexer's attribute assertion fires
before tag dispatch, so the enclosing declaration aborts with a lex error. -/
theorem c7_comment_attribute_counterexample :
    lexXmlPiece [] (.element "comment" [("a", "b")] []) =
      .error "assertion failed: element attributes in C declaration" :=
  rfl

/-- C7 amended: in the declarator lexer, every element child carrying an
attribute is a fatal lex error (the no-attribute assertion precedes tag
dispatch); an attribute-free `comment` element contributes no token; an
attribute-free `type`, `enum`, or `name` element holding exactly one text
child contributes respectively one `TypeName`, `ValueName`, or `DeclName`
token carrying that text; and any other element shape — wrong child count,
a single non-text child, or an unrecognized tag — is a fatal lex error. -/
theorem c7_lexer_element_shapes (acc : List CTok) (s tag : String)
    (attrs : List (String × String)) (ch : List XNode) (sub : XNode) :
    lexXmlPiece acc (.element "comment" [] ch) = .ok acc ∧
    lexXmlPiece acc (.element "type" [] [.text s]) = .ok (acc ++ [.TypeName s]) ∧
    lexXmlPiece acc (.element "enum" [] [.text s]) = .ok (acc ++ [.ValueName s]) ∧
    lexXmlPiece acc (.element "name" [] [.text s]) = .ok (acc ++ [.DeclName s]) ∧
    (tag ∈ (["type", "enum", "name"] : List String) → ch.length ≠ 1 →
      exceptErrored (lexXmlPiece acc (.element tag [] ch)) = true) ∧
    (tag ∈ (["type", "enum", "name"] : List String) → (∀ u, sub ≠ XNode.text u) →
      exceptErrored (lexXmlPiece acc (.element tag [] [sub])) = true) ∧
    (tag ∉ (["comment", "type", "enum", "name"] : List String) →
      exceptErrored (lexXmlPiece acc (.element tag attrs ch)) = true) ∧
    (attrs ≠ [] →
      exceptErrored (lexXmlPiece acc (.element tag attrs ch)) = true) := by
  refine ⟨rfl, rfl, rfl, rfl, ?_, ?_, ?_, ?_⟩
  · intro htag hlen
    simp only [List.mem_cons, List.not_mem_nil, or_false] at htag
    rcases htag with h | h | h <;> subst h <;>
      simp [lexXmlPiece, hlen, exceptErrored]
  · intro htag hsub
    have hts : XNode.textStorage (.element tag [] [sub]) = none := by
      cases sub with
      | text u => exact absurd rfl (hsub u)
      | element t2 a2 c2 => rfl
      | comment c2 => rfl
    simp only [List.mem_cons, List.not_mem_nil, or_false] at htag
    rcases htag with h | h | h <;> subst h <;>
      simp [lexXmlPiece, hts, exceptErrored]
  · intro htag
    simp only [List.mem_cons, List.not_mem_nil, or_false, not_or] at htag
    obtain ⟨h1, h2, h3, h4⟩ := htag
    by_cases hattrs : attrs.length ≠ 0
    · simp [lexXmlPiece, hattrs, exceptErrored]
    · simp only [lexXmlPiece, hattrs, if_false, ite_false]
      simp [h1, h2, h3, h4, exceptErrored]
  · intro hattrs
    have hlen : attrs.length ≠ 0 := by
      simpa [List.length_eq_zero] using hattrs
    simp [lexXmlPiece, hlen, exceptErrored]

/-- C7 witness: the lexer evaluated at one instance of each element shape,
including a `type` element whose single child is not a text node. -/
theorem c7_lexer_element_shapes_witness :
    lexXmlPiece [] (.element "comment" [] []) = .ok [] ∧
    lexXmlPiece [] (.element "type" [] [.text "void"]) = .ok [.TypeName "void"] ∧
    exceptErrored (lexXmlPiece [] (.element "type" [] [])) = true ∧
    exceptErrored (lexXmlPiece [] (.element "type" [] [.comment "c"])) = true ∧
    exceptErrored (lexXmlPiece [] (.element "foo" [] [])) = true ∧
    exceptErrored (lexXmlPiece [] (.element "type" [("a", "b")] [])) = true := by
  have h := c7_lexer_element_shapes [] "void" "type" [("a", "b")] [] (.comment "c")
  have h2 := c7_lexer_element_shapes [] "void" "foo" [] [] (.comment "c")
  have h3 := c7_lexer_element_shapes [] "void" "type" [] [] (.comment "c")
  exact ⟨h.1, h.2.1, h3.2.2.2.2.1 (by decide) (by decide),
        h3.2.2.2.2.2.1 (by decide) (fun u h => XNode.noConfusion h),
        h2.2.2.2.2.2.2.1 (by decide), h.2.2.2.2.2.2.2 (by decide)⟩

/-- Stripping a literal prefix from a list that starts with it yields the
remainder. -/
theorem dropPfx_append (p s : List Char) : dropPfx p (p ++ s) = some s := by
  induction p with
  | nil => rfl
  | cons c cs ih => simp [dropPfx, ih]

/-- A list free of the separator splits into the single segment itself. -/
theorem splitSep_of_not_mem {sep : Char} {xs : List Char} (h : sep ∉ xs) :
    splitSep sep xs = [xs] := by
  induction xs with
  | nil => rfl
  | cons c cs ih =>
    simp only [List.mem_cons, not_or] at h
    rw [splitSep, ih h.2]
    simp [Ne.symm h.1]

/-- Splitting a list of the form `a ++ sep :: b` where `a` is free of the
separator peels off `a` as the first segment. -/
theorem splitSep_append_cons {sep : Char} {a b : List Char} (h : sep ∉ a) :
    splitSep sep (a ++ sep :: b) = a :: splitSep sep b := by
  induction a with
  | nil => simp [splitSep]
  | cons c cs ih =>
    simp only [List.mem_cons, not_or] at h
    rw [List.cons_append, splitSep, ih h.2]
    simp [Ne.symm h.1]

/-- A successfully parsed unsigned integer contains no underscore: all of its
characters are digits, except for a possible leading plus sign. -/
theorem parseBounded_not_underscore {bound : Nat} {s : List Char} {v : Nat}
    (h : parseBounded bound s = some v) : '_' ∉ s := by
  unfold parseBounded at h
  intro hmem
  by_cases hplus : s.head? = some '+'
  · simp only [hplus, if_true] at h
    have htail : '_' ∈ s.tail := by
      cases s with
      | nil => simp at hmem
      | cons c cs =>
        simp only [List.head?_cons, Option.some.injEq] at hplus
        subst hplus
        simpa using hmem
    by_cases hempty : s.tail.isEmpty
    · simp [hempty] at h
    · by_cases hall : s.tail.all Char.isDigit
      · have := List.all_eq_true.mp hall _ htail
        simp at this
      · simp [hempty, hall] at h
  · simp only [hplus, if_false, ite_false] at h
    by_cases hempty : s.isEmpty
    · simp [hempty] at h
    · by_cases hall : s.all Char.isDigit
      · have := List.all_eq_true.mp hall _ hmem
        simp at this
      · simp [hempty, hall] at h

/-- Version parsing after successful prefix stripping reduces to the segment
scan of the remainder. -/
theorem fromStr_append (rest : List Char) :
    Xml.Version.fromStr ("VK_VERSION_".data ++ rest) =
      match (splitSep '_' rest).filterMap parseU32 with
      | [major, minor] => some ⟨major, minor⟩
      | _ => none := by
  unfold Xml.Version.fromStr
  rw [dropPfx_append]

/-- C9: for every pair of strings parsing as unsigned 32-bit integers with
values `a` and `b`, the feature name `VK_VERSION_` ++ M ++ `_` ++ m parses to
version `(a, b)`, and a feature node whose `name` attribute does not yield a
version this way makes `Feature::from_node` abort with a fatal error. -/
theorem c9_feature_version_parsing (M m : List Char) (a b : Nat)
    (node : XNode) (api nm : String) :
    (parseU32 M = some a → parseU32 m = some b →
      Xml.Version.fromStr ("VK_VERSION_".data ++ (M ++ '_' :: m)) = some ⟨a, b⟩) ∧
    (node.attr? "name" = some nm → Xml.Version.fromStr nm.data = none →
      exceptErrored (Xml.Feature.fromNode node api) = true) := by
  constructor
  · intro hM hm
    rw [fromStr_append]
    rw [splitSep_append_cons (parseBounded_not_underscore hM)]
    rw [splitSep_of_not_mem (parseBounded_not_underscore hm)]
    simp [List.filterMap_cons, List.filterMap_nil, hM, hm]
  · intro hname hver
    simp [Xml.Feature.fromNode, attrE, hname, hver, exceptErrored, Bind.bind, Except.bind]

/-- C9 witness: the version parser and the feature builder evaluated at
concrete inputs. -/
theorem c9_feature_version_parsing_witness :
    Xml.Version.fromStr ("VK_VERSION_".data ++ ("1".data ++ '_' :: "0".data)) =
      some ⟨1, 0⟩ ∧
    exceptErrored
      (Xml.Feature.fromNode (.element "feature" [("name", "VKX")] []) "vulkan") = true := by
  have h := c9_feature_version_parsing "1".data "0".data 1 0
    (.element "feature" [("name", "VKX")] []) "vulkan" "VKX"
  exact ⟨h.1 (by decide) (by decide), h.2 (by decide) (by decide)⟩

/-- C10: version parsing only requires the literal `VK_VERSION_` prefix and a
remainder whose underscore-separated segments contain exactly two that parse
as unsigned integers — non-numeric segments are silently skipped (so the
non-conforming name `VK_VERSION_1_x_2` parses to version `(1, 2)`), and a
remainder with fewer or more than two numeric segments yields no version. -/
theorem c10_version_segment_skipping (rest : List Char) (a b : Nat) :
    Xml.Version.fromStr "VK_VERSION_1_x_2".data = some ⟨1, 2⟩ ∧
    ((splitSep '_' rest).filterMap parseU32 = [a, b] →
      Xml.Version.fromStr ("VK_VERSION_".data ++ rest) = some ⟨a, b⟩) ∧
    (((splitSep '_' rest).filterMap parseU32).length ≠ 2 →
      Xml.Version.fromStr ("VK_VERSION_".data ++ rest) = none) := by
  refine ⟨by decide, ?_, ?_⟩
  · intro h
    rw [fromStr_append, h]
  · intro hlen
    rw [fromStr_append]
    cases hfm : (splitSep '_' rest).filterMap parseU32 with
    | nil => rfl
    | cons x xs =>
      cases xs with
      | nil => rfl
      | cons y ys =>
        cases ys with
        | nil => exact absurd (by rw [hfm]; rfl) hlen
        | cons z zs => rfl

/-- C10 witness: the version parser evaluated at a remainder with a skipped
non-numeric segment and at a remainder with three numeric segments. -/
theorem c10_version_segment_skipping_witness :
    Xml.Version.fromStr ("VK_VERSION_".data ++ "2_q_7".data) = some ⟨2, 7⟩ ∧
    Xml.Version.fromStr ("VK_VERSION_".data ++ "1_2_3".data) = none :=
  ⟨(c10_version_segment_skipping "2_q_7".data 2 7).2.1 (by decide),
   (c10_version_segment_skipping "1_2_3".data 1 2).2.2 (by decide)⟩

/-- Folding over a flattened list equals the nested fold. -/
theorem foldl_flatMap {α β γ : Type} (g : α → List β) (f : γ → β → γ)
    (l : List α) (init : γ) :
    (l.flatMap g).foldl f init = l.foldl (fun acc a => (g a).foldl f acc) init := by
  induction l generalizing init with
  | nil => rfl
  | cons a as ih => simp [List.flatMap_cons, List.foldl_append, ih]

/-- The map-building loops of `Library::collect_into` equal one fold of
`mapInsert` over the flattened document-order entry sequence. -/
theorem typesRequireMap_eq_foldl (library : Library) :
    library.typesRequireMap =
      library.requireEntries.foldl (fun m kv => mapInsert m kv.1 kv.2) (fun _ => none) := by
  have hf : ∀ (rb : RequiredBy) (rs : List Xml.Require) (m : String → Option RequiredBy),
      (rs.flatMap fun r => r.types.map fun t => (t.name, rb)).foldl
          (fun m kv => mapInsert m kv.1 kv.2) m =
        rs.foldl (fun m r => r.types.foldl (fun m t => mapInsert m t.name rb) m) m := by
    intro rb rs m
    rw [foldl_flatMap]
    congr 1
    funext m r
    rw [List.foldl_map]
  unfold Library.typesRequireMap Library.requireEntries
  rw [List.foldl_append, foldl_flatMap, foldl_flatMap]
  simp only [hf]

/-- The value of a fold of replacing insertions at a key is the last entry
bound to that key, with the initial map as fallback. -/
theorem foldl_mapInsert_find (entries : List (String × RequiredBy))
    (m0 : String → Option RequiredBy) (q : String) :
    (entries.foldl (fun m kv => mapInsert m kv.1 kv.2) m0) q =
      match entries.reverse.find? (fun kv => kv.1 == q) with
      | some kv => some kv.2
      | none => m0 q := by
  induction entries using List.reverseRecOn with
  | nil => rfl
  | append_singleton l kv ih =>
    rw [List.foldl_append, List.foldl_cons, List.foldl_nil]
    simp only [List.reverse_append, List.reverse_cons, List.reverse_nil, List.nil_append,
      List.singleton_append]
    by_cases hq : (kv.1 == q) = true
    · have hfind : List.find? (fun kv => kv.1 == q) (kv :: l.reverse) = some kv :=
        List.find?_cons_of_pos _ hq
      rw [hfind]
      simp only [mapInsert]
      rw [if_pos (eq_of_beq hq).symm]
    · have hfind : List.find? (fun kv => kv.1 == q) (kv :: l.reverse) =
          List.find? (fun kv => kv.1 == q) l.reverse :=
        List.find?_cons_of_neg _ hq
      rw [hfind]
      simp only [mapInsert]
      rw [if_neg (fun h => hq (beq_iff_eq.mpr h.symm))]
      exact ih

/-- C1 counterexample: for a type required by both feature `1.0` and feature
`1.1` with feature `1.0` processed first, the origin resolver records
`Feature{1,1}` — the later occurrence overwrites the earlier one, so the
resolved `RequiredBy` is NOT `Feature{1,0}`. -/
theorem c1_first_wins_counterexample :
    twoFeatureLib.typesRequireMap "VkFoo" = some (.feature 1 1) ∧
      twoFeatureLib.typesRequireMap "VkFoo" ≠ some (.feature 1 0) := by
  constructor <;> decide

/-- C1 amended: for every type name referenced in the `Require.types` entries
of the features and extensions of a registry, the origin resolver records the
LAST `RequiredBy` it encounters in document order (features in document
order, then extensions) — later occurrences overwrite earlier ones — and a
name never referenced is absent from the map. -/
theorem c1_last_wins_origin_resolution (library : Library) (name : String) :
    library.typesRequireMap name =
      match library.requireEntries.reverse.find? (fun kv => kv.1 == name) with
      | some kv => some kv.2
      | none => none := by
  rw [typesRequireMap_eq_foldl]
  exact foldl_mapInsert_find library.requireEntries (fun _ => none) name

/-- The per-structure loop of `Items::collect`, on success, appends exactly
the required structures in registry order, each tagged with its mapped
origin. -/
theorem collectAux_ok_eq (library : Library) (trm : String → Option RequiredBy) :
    ∀ (structs : List Xml.Structure) (items items2 : Items),
    Items.collectAux library trm structs items = .ok items2 →
    items2.structures = items.structures ++
      structs.filterMap (fun st =>
        match trm st.name with
        | some rb => some (st.name, ItemStructure.new ⟨library.id, rb⟩ st)
        | none => none) := by
  intro structs
  induction structs with
  | nil =>
    intro items items2 h
    simp only [Items.collectAux] at h
    cases h
    simp
  | cons st rest ih =>
    intro items items2 h
    simp only [Items.collectAux] at h
    cases htrm : trm st.name with
    | none =>
      rw [htrm] at h
      rw [ih _ _ h]
      simp [List.filterMap_cons, htrm]
    | some rb =>
      rw [htrm] at h
      cases hdup : items.structures.any (fun p => p.1 == st.name) with
      | true =>
        rw [hdup] at h
        simp at h
      | false =>
        rw [hdup] at h
        simp only [Bool.false_eq_true, if_false, ite_false] at h
        rw [ih _ _ h]
        simp [List.filterMap_cons, htrm, List.append_assoc]

/-- If some structure in the list is required by the map and its name is
already present in the catalogue, the collection loop aborts with a fatal
error. -/
theorem collectAux_collision (library : Library) (trm : String → Option RequiredBy) :
    ∀ (structs : List Xml.Structure) (items : Items) (st : Xml.Structure),
    st ∈ structs → trm st.name ≠ none →
    items.structures.any (fun p => p.1 == st.name) = true →
    exceptErrored (Items.collectAux library trm structs items) = true := by
  intro structs
  induction structs with
  | nil =>
    intro items st hmem
    simp at hmem
  | cons hd rest ih =>
    intro items st hmem htrm hpresent
    rcases List.mem_cons.mp hmem with heq | hmem2
    · subst heq
      simp only [Items.collectAux]
      cases htr : trm st.name with
      | none => exact absurd htr htrm
      | some rb => simp [hpresent, exceptErrored]
    · simp only [Items.collectAux]
      cases htr : trm hd.name with
      | none => exact ih items st hmem2 htrm hpresent
      | some rb =>
        cases hdup : items.structures.any (fun p => p.1 == hd.name) with
        | true => simp [exceptErrored]
        | false =>
          simp only [Bool.false_eq_true, if_false, ite_false]
          apply ih _ st hmem2 htrm
          simp [List.any_append, hpresent]

/-- The collection loop preserves distinctness of catalogue keys. -/
theorem collectAux_nodup (library : Library) (trm : String → Option RequiredBy) :
    ∀ (structs : List Xml.Structure) (items items2 : Items),
    Items.collectAux library trm structs items = .ok items2 →
    (items.structures.map Prod.fst).Nodup →
    (items2.structures.map Prod.fst).Nodup := by
  intro structs
  induction structs with
  | nil =>
    intro items items2 h hnd
    simp only [Items.collectAux] at h
    cases h
    exact hnd
  | cons st rest ih =>
    intro items items2 h hnd
    simp only [Items.collectAux] at h
    cases htrm : trm st.name with
    | none =>
      rw [htrm] at h
      exact ih _ _ h hnd
    | some rb =>
      rw [htrm] at h
      cases hdup : items.structures.any (fun p => p.1 == st.name) with
      | true =>
        rw [hdup] at h
        simp at h
      | false =>
        rw [hdup] at h
        simp only [Bool.false_eq_true, if_false, ite_false] at h
        apply ih _ _ h
        rw [List.map_append]
        rw [List.nodup_append]
        refine ⟨hnd, by simp, ?_⟩
        intro a ha hb
        simp only [List.map_cons, List.map_nil, List.mem_singleton] at hb
        subst hb
        obtain ⟨p, hp, hpa⟩ := List.mem_map.mp ha
        have : items.structures.any (fun p => p.1 == st.name) = true :=
          List.any_eq_true.mpr ⟨p, hp, beq_iff_eq.mpr hpa⟩
        rw [hdup] at this
        exact absurd this (by simp)

/-- C3: when required structures are collected into the merged item
catalogue, a structure name already present in the catalogue is a fatal
ingestion error, and a successfully built merged catalogue (first library
collected, then the second) never holds two entries under one name. -/
theorem c3_merged_catalogue_collision_fatal :
    (∀ (items : Items) (library : Library) (trm : String → Option RequiredBy)
        (st : Xml.Structure),
      st ∈ library.xml.structs → trm st.name ≠ none →
      items.structures.any (fun p => p.1 == st.name) = true →
      exceptErrored (Items.collect items library trm) = true) ∧
    (∀ (vk video : Library) (items2 : Items),
      analysisItems vk video = .ok items2 →
      (items2.structures.map Prod.fst).Nodup) := by
  constructor
  · intro items library trm st hmem htrm hpresent
    exact collectAux_collision library trm library.xml.structs items st hmem htrm hpresent
  · intro vk video items2 h
    unfold analysisItems at h
    cases hvk : vk.collectInto {} with
    | error e =>
      rw [hvk] at h
      simp [Bind.bind, Except.bind] at h
    | ok mid =>
      rw [hvk] at h
      simp only [Bind.bind, Except.bind] at h
      have hmid : (mid.structures.map Prod.fst).Nodup :=
        collectAux_nodup vk vk.typesRequireMap vk.xml.structs {} mid hvk (by simp)
      exact collectAux_nodup video video.typesRequireMap video.xml.structs mid items2 h hmid

/-- C3 witness: a collision with a pre-existing catalogue entry evaluated at
concrete inputs, and distinctness of the merged catalogue keys for a concrete
two-library run. -/
theorem c3_merged_catalogue_collision_fatal_witness :
    exceptErrored
      (Items.collect sampleItemsWithA
        { id := .Vk, xml := { structs := [⟨"VkA", [], []⟩] } } sampleMapA) = true ∧
    (sampleCollectResult.structures.map Prod.fst).Nodup := by
  constructor
  · exact c3_merged_catalogue_collision_fatal.1 sampleItemsWithA
      { id := .Vk, xml := { structs := [⟨"VkA", [], []⟩] } } sampleMapA
      ⟨"VkA", [], []⟩ (List.mem_singleton.mpr rfl) (by simp [sampleMapA]) (by decide)
  · exact c3_merged_catalogue_collision_fatal.2 sampleLibA sampleLibEmpty
      sampleCollectResult rfl

/-- C5: on success, the merged catalogue extends the incoming catalogue with
exactly those structures of the registry whose names appear in some feature's
or extension's `Require.types` entries (in registry order, each tagged with
origin `(library id, mapped RequiredBy)`); structures never referenced by any
`Require` group are omitted; and a name is in the origin map exactly when
some `Require.types` entry references it. -/
theorem c5_catalogue_exactly_required (items0 : Items) (library : Library)
    (items2 : Items) (name : String) :
    (library.collectInto items0 = .ok items2 →
      items2.structures = items0.structures ++
        library.xml.structs.filterMap (fun st =>
          match library.typesRequireMap st.name with
          | some rb => some (st.name, ItemStructure.new ⟨library.id, rb⟩ st)
          | none => none)) ∧
    ((library.typesRequireMap name).isSome ↔
      ∃ rb, (name, rb) ∈ library.requireEntries) := by
  constructor
  · intro h
    exact collectAux_ok_eq library library.typesRequireMap library.xml.structs items0 items2 h
  · rw [typesRequireMap_eq_foldl, foldl_mapInsert_find]
    cases hf : library.requireEntries.reverse.find? (fun kv => kv.1 == name) with
    | some kv =>
      simp only [Option.isSome_some, true_iff]
      have hkv := List.find?_some hf
      have hmem := List.mem_reverse.mp (List.mem_of_find?_eq_some hf)
      refine ⟨kv.2, ?_⟩
      have : kv.1 = name := eq_of_beq hkv
      rw [← this]
      exact hmem
    | none =>
      simp only [Option.isSome_none, Bool.false_eq_true, false_iff]
      rintro ⟨rb, hmem⟩
      have := List.find?_eq_none.mp hf (name, rb) (List.mem_reverse.mpr hmem)
      simp at this

/-- C5 witness: the catalogue equation evaluated at a concrete library in
which `VkA` is required and `VkB` is not. -/
theorem c5_catalogue_exactly_required_witness :
    sampleCollectResult.structures = ({} : Items).structures ++
      sampleLibA.xml.structs.filterMap (fun st =>
        match sampleLibA.typesRequireMap st.name with
        | some rb => some (st.name, ItemStructure.new ⟨sampleLibA.id, rb⟩ st)
        | none => none) :=
  (c5_catalogue_exactly_required {} sampleLibA sampleCollectResult "VkA").1 rfl

end VkAnalysis
